import Mathlib

/-!
Shallow embedding of the sync core of the intervals.lol repository
(Go backend: `backend/internal/store/sqlite.go`, `backend/internal/api/handlers.go`,
rate limiter; JS client: `src/SyncService.js`, `src/WorkoutContext.jsx`),
together with theorems settling the specification claims.

Conventions of the embedding:
* Timestamps are epoch milliseconds as `Nat`; the Go `time.Time` zero value
  (`IsZero()`) is represented by `0`.  SQLite `DATETIME` comparison of values
  written by the driver agrees with chronological order, so the SQL
  `updated_at > ?` comparison is `Nat` comparison on the millisecond values.
* SQL result ordering (`ORDER BY ... DESC` / `ASC`) is modelled with
  `List.insertionSort`, a stable sort.
* Tables are lists of rows; `INSERT` appends, `UPDATE`/upsert maps over rows.
  Primary-key uniqueness of SQLite tables is not enforced by the list model;
  theorems that need it take it as a hypothesis or avoid it.
* Fallible store calls that the claims exercise return `Option`
  (`none` = the `sql.ErrNoRows` / "workout not found" error path).
-/

namespace IntervalsSync

/-! ## Data model (`backend/internal/models/models.go`) -/

/-- Source `models.Session`: an authenticated session row. -/
structure Session where
  token : String
  userId : String
  createdAt : Nat
deriving DecidableEq, Repr

/-- Source `models.Interval`: one interval inside a workout (JSON shape). -/
structure Interval where
  id : String
  name : String
  duration : Int
  color : String
  position : Int
deriving DecidableEq, Repr

/-- Source `models.Workout`: a workout with its interval list (JSON shape). -/
structure Workout where
  id : String
  userId : String
  name : String
  rounds : Int
  intervals : List Interval
  createdAt : Nat
  updatedAt : Nat
  deletedAt : Option Nat
deriving DecidableEq, Repr

/-- Source `models.Completion`: a workout-history entry. -/
structure Completion where
  id : String
  userId : String
  workoutId : String
  workoutName : String
  totalDuration : Int
  elapsedDuration : Int
  completed : Bool
  startedAt : Nat
  completedAt : Option Nat
  updatedAt : Nat
  deletedAt : Option Nat
deriving DecidableEq, Repr

/-! ## Store state (tables created in `SQLiteStore.Migrate`) -/

/-- A row of the `workouts` table (no intervals column). -/
structure WorkoutRow where
  id : String
  userId : String
  name : String
  rounds : Int
  createdAt : Nat
  updatedAt : Nat
  deletedAt : Option Nat
deriving DecidableEq, Repr

/-- A row of the `workout_intervals` table. -/
structure IntervalRow where
  id : String
  workoutId : String
  name : String
  duration : Int
  color : String
  position : Int
deriving DecidableEq, Repr

/-- The mutable state of the SQLite store: one list per table.
The `completions` table rows coincide with `models.Completion`.
`syncMetadata` is the `sync_metadata` table (`user_id`, `last_sync_time`). -/
structure StoreState where
  sessions : List Session
  workouts : List WorkoutRow
  workoutIntervals : List IntervalRow
  completions : List Completion
  syncMetadata : List (String × Nat)
deriving DecidableEq, Repr

/-- The empty database, as produced by `Migrate` on a fresh file. -/
def StoreState.empty : StoreState :=
  { sessions := [], workouts := [], workoutIntervals := [],
    completions := [], syncMetadata := [] }

/-! ## Store operations (`backend/internal/store/sqlite.go`) -/

/-- Source `CreateSession`: INSERT INTO sessions. -/
def createSession (st : StoreState) (token userID : String) (now : Nat) : StoreState :=
  { st with sessions := st.sessions ++ [{ token := token, userId := userID, createdAt := now }] }

/-- Source `VerifySession`: SELECT ... FROM sessions WHERE token = ?;
`none` models the "invalid session token" error on `sql.ErrNoRows`. -/
def verifySession (st : StoreState) (token : String) : Option Session :=
  st.sessions.find? (fun s => s.token = token)

/-- Source `DeleteSession`: DELETE FROM sessions WHERE token = ?. -/
def deleteSession (st : StoreState) (token : String) : StoreState :=
  { st with sessions := st.sessions.filter (fun s => ¬ (s.token = token)) }

/-- The interval rows inserted by `UpsertWorkout` for workout `wid`:
the source iterates `workout.Intervals` with index `i` and uses
`position = interval.Position`, replaced by `i` when `Position == 0 && i > 0`. -/
def intervalRowsOf (wid : String) (ivs : List Interval) : List IntervalRow :=
  ivs.enum.map (fun p =>
    let i := p.1
    let itv := p.2
    let position : Int := if itv.position = 0 ∧ i > 0 then (i : Int) else itv.position
    { id := itv.id, workoutId := wid, name := itv.name, duration := itv.duration,
      color := itv.color, position := position })

/-- Source `UpsertWorkout`: fills zero timestamps from `now`, then
INSERT ... ON CONFLICT(id) DO UPDATE SET name, rounds, updated_at, deleted_at
(`user_id` and `created_at` are not in the update list), then deletes all
`workout_intervals` rows of the workout and reinserts the incoming list. -/
def upsertWorkout (st : StoreState) (now : Nat) (w : Workout) : StoreState :=
  let createdAt := if w.createdAt = 0 then now else w.createdAt
  let updatedAt := if w.updatedAt = 0 then now else w.updatedAt
  let workouts :=
    if st.workouts.any (fun r => r.id = w.id) then
      st.workouts.map (fun r =>
        if r.id = w.id then
          { r with name := w.name, rounds := w.rounds,
                   updatedAt := updatedAt, deletedAt := w.deletedAt }
        else r)
    else
      st.workouts ++ [{ id := w.id, userId := w.userId, name := w.name, rounds := w.rounds,
                        createdAt := createdAt, updatedAt := updatedAt, deletedAt := w.deletedAt }]
  let kept := st.workoutIntervals.filter (fun r => ¬ (r.workoutId = w.id))
  { st with workouts := workouts,
            workoutIntervals := kept ++ intervalRowsOf w.id w.intervals }

/-- Ascending-by-position order used by `getIntervals` (ORDER BY position ASC). -/
def posLe (a b : IntervalRow) : Prop := a.position ≤ b.position

instance : DecidableRel posLe := fun a b => inferInstanceAs (Decidable (a.position ≤ b.position))

instance : IsTotal IntervalRow posLe := ⟨fun a b => Int.le_total a.position b.position⟩

instance : IsTrans IntervalRow posLe := ⟨fun _ _ _ h1 h2 => le_trans h1 h2⟩

/-- Descending-by-updated-at order used by the modified-since queries
(ORDER BY updated_at DESC). -/
def updDescRow (a b : WorkoutRow) : Prop := b.updatedAt ≤ a.updatedAt

instance : DecidableRel updDescRow := fun a b => inferInstanceAs (Decidable (b.updatedAt ≤ a.updatedAt))

instance : IsTotal WorkoutRow updDescRow := ⟨fun a b => (Nat.le_total b.updatedAt a.updatedAt).symm.symm⟩

instance : IsTrans WorkoutRow updDescRow := ⟨fun _ _ _ h1 h2 => le_trans h2 h1⟩

/-- The same descending order on completions. -/
def updDescCompletion (a b : Completion) : Prop := b.updatedAt ≤ a.updatedAt

instance : DecidableRel updDescCompletion :=
  fun a b => inferInstanceAs (Decidable (b.updatedAt ≤ a.updatedAt))

instance : IsTotal Completion updDescCompletion := ⟨fun a b => Nat.le_total b.updatedAt a.updatedAt⟩

instance : IsTrans Completion updDescCompletion := ⟨fun _ _ _ h1 h2 => le_trans h2 h1⟩

/-- The `models.Interval` value scanned from an interval row
(`getIntervals` selects id, name, duration, color, position). -/
def toInterval (r : IntervalRow) : Interval :=
  { id := r.id, name := r.name, duration := r.duration, color := r.color, position := r.position }

/-- Source `getIntervals`: SELECT ... FROM workout_intervals WHERE workout_id = ?
ORDER BY position ASC. -/
def getIntervals (st : StoreState) (workoutID : String) : List Interval :=
  ((st.workoutIntervals.filter (fun r => r.workoutId = workoutID)).insertionSort posLe).map toInterval

/-- The `models.Workout` assembled from a row plus its loaded intervals. -/
def attachIntervals (st : StoreState) (r : WorkoutRow) : Workout :=
  { id := r.id, userId := r.userId, name := r.name, rounds := r.rounds,
    intervals := getIntervals st r.id,
    createdAt := r.createdAt, updatedAt := r.updatedAt, deletedAt := r.deletedAt }

/-- Source `GetWorkoutsModifiedSince`: SELECT ... WHERE user_id = ? AND updated_at > ?
ORDER BY updated_at DESC, then loads intervals for each returned workout. -/
def getWorkoutsModifiedSince (st : StoreState) (userID : String) (since : Nat) : List Workout :=
  ((st.workouts.filter (fun r => r.userId = userID ∧ since < r.updatedAt)).insertionSort
      updDescRow).map (attachIntervals st)

/-- Source `GetWorkout`: SELECT ... WHERE id = ? AND user_id = ? AND deleted_at IS NULL;
`none` models the "workout not found" error on `sql.ErrNoRows`. -/
def getWorkout (st : StoreState) (userID workoutID : String) : Option Workout :=
  (st.workouts.find? (fun r => r.id = workoutID ∧ r.userId = userID ∧ r.deletedAt = none)).map
    (attachIntervals st)

/-- Source `DeleteWorkout` (soft delete): UPDATE workouts SET deleted_at = now,
updated_at = now WHERE id = ? AND user_id = ?. -/
def deleteWorkout (st : StoreState) (userID workoutID : String) (now : Nat) : StoreState :=
  { st with workouts := st.workouts.map (fun r =>
      if r.id = workoutID ∧ r.userId = userID then
        { r with deletedAt := some now, updatedAt := now }
      else r) }

/-- Source `UpsertCompletion`: fills zero `started_at`/`updated_at` from `now`, then
INSERT ... ON CONFLICT(id) DO UPDATE SET elapsed_duration, completed,
completed_at, updated_at, deleted_at (all other columns are not updated). -/
def upsertCompletion (st : StoreState) (now : Nat) (c : Completion) : StoreState :=
  let startedAt := if c.startedAt = 0 then now else c.startedAt
  let updatedAt := if c.updatedAt = 0 then now else c.updatedAt
  let completions :=
    if st.completions.any (fun r => r.id = c.id) then
      st.completions.map (fun r =>
        if r.id = c.id then
          { r with elapsedDuration := c.elapsedDuration, completed := c.completed,
                   completedAt := c.completedAt, updatedAt := updatedAt,
                   deletedAt := c.deletedAt }
        else r)
    else
      st.completions ++ [{ c with startedAt := startedAt, updatedAt := updatedAt }]
  { st with completions := completions }

/-- Source `GetCompletionsModifiedSince`: SELECT ... WHERE user_id = ? AND updated_at > ?
ORDER BY updated_at DESC. -/
def getCompletionsModifiedSince (st : StoreState) (userID : String) (since : Nat) :
    List Completion :=
  (st.completions.filter (fun c => c.userId = userID ∧ since < c.updatedAt)).insertionSort
    updDescCompletion

/-- Source `UpdateLastSyncTime`: INSERT INTO sync_metadata ... ON CONFLICT(user_id)
DO UPDATE SET last_sync_time. -/
def updateLastSyncTime (st : StoreState) (userID : String) (syncTime : Nat) : StoreState :=
  if st.syncMetadata.any (fun p => p.1 = userID) then
    { st with syncMetadata := st.syncMetadata.map (fun p =>
        if p.1 = userID then (p.1, syncTime) else p) }
  else
    { st with syncMetadata := st.syncMetadata ++ [(userID, syncTime)] }

/-! ## Rate limiter (`backend/internal/api/ratelimit.go`, `RateLimiter.Allow`)

Time is in seconds as `ℚ` (the source computes `elapsed.Seconds()`, a float,
and keeps fractional token counts; rationals model the real-valued arithmetic
exactly for the rational instants the claims use). -/

/-- One token bucket (`tokens`, `lastRefill`, `rate`, `capacity`). -/
structure Bucket where
  tokens : ℚ
  lastRefill : ℚ
  rate : ℚ
  capacity : ℚ
deriving DecidableEq, Repr

/-- The rate and capacity chosen by `Allow` for a limit class:
"login" is 0.5 tokens/sec with capacity 2, "sync" is 10/sec with capacity 20;
any other class returns `none` (the source allows it unconditionally). -/
def limitParams (limitType : String) : Option (ℚ × ℚ) :=
  if limitType = "login" then some (1/2, 2)
  else if limitType = "sync" then some (10, 20)
  else none

/-- Replace-or-insert on the bucket map (Go map assignment). -/
def putBucket (m : List (String × Bucket)) (k : String) (b : Bucket) : List (String × Bucket) :=
  if m.any (fun p => p.1 = k) then
    m.map (fun p => if p.1 = k then (k, b) else p)
  else
    m ++ [(k, b)]

/-- Source `RateLimiter.Allow`: looks up (or creates, full) the bucket for
`key ++ ":" ++ limitType`, refills by `elapsed * rate` capped at capacity,
then consumes one token when at least one is available. Returns the decision
and the updated bucket map. -/
def rlAllow (m : List (String × Bucket)) (key limitType : String) (now : ℚ) :
    Bool × List (String × Bucket) :=
  match limitParams limitType with
  | none => (true, m)
  | some (rate, capacity) =>
    let bucketKey := key ++ ":" ++ limitType
    let b : Bucket :=
      match (m.find? (fun p => p.1 = bucketKey)).map Prod.snd with
      | some b => b
      | none => { tokens := capacity, lastRefill := now, rate := rate, capacity := capacity }
    let elapsed := now - b.lastRefill
    let tokens := min b.capacity (b.tokens + elapsed * b.rate)
    if 1 ≤ tokens then
      (true, putBucket m bucketKey { b with tokens := tokens - 1, lastRefill := now })
    else
      (false, putBucket m bucketKey { b with tokens := tokens, lastRefill := now })

/-! ## API handlers (`backend/internal/api/handlers.go`) -/

/-- Source `models.AuthRequest`. -/
structure AuthRequest where
  profileName : String
  passwordHash : String
deriving DecidableEq, Repr

/-- Outcome of `AuthInit`, by HTTP status: 200 with a token, 429
("Too many login attempts"), 401 ("Invalid password"), 400
("Profile name is required"), 500 on store failure (not modelled: the
list-based store cannot fail). -/
inductive AuthResult where
  | ok (token : String)
  | rateLimited
  | unauthorized
  | validationFailure
deriving DecidableEq, Repr

/-- Server-side state touched by the auth handler: the store plus the
in-memory rate-limiter buckets. -/
structure ServerState where
  store : StoreState
  buckets : List (String × Bucket)
deriving DecidableEq, Repr

/-- Source `Handler.AuthInit`: rate-limits the client address first (class "login");
then, when a server password hash is configured, rejects a mismatched hash
with 401 before anything else; then requires a nonempty profile name; on
success creates a session with a fresh token (passed in as `newToken`,
modelling the two concatenated UUIDs) and the profile name as user id.
`nowSec` is the rate-limiter clock (seconds), `nowMs` the session timestamp. -/
def authInit (syncPasswordHash : String) (srv : ServerState) (clientIP : String)
    (req : AuthRequest) (newToken : String) (nowSec : ℚ) (nowMs : Nat) :
    AuthResult × ServerState :=
  let allowed := rlAllow srv.buckets clientIP "login" nowSec
  if allowed.1 = false then
    (.rateLimited, { srv with buckets := allowed.2 })
  else
    let srv := { srv with buckets := allowed.2 }
    if syncPasswordHash ≠ "" ∧ req.passwordHash ≠ syncPasswordHash then
      (.unauthorized, srv)
    else if req.profileName = "" then
      (.validationFailure, srv)
    else
      (.ok newToken, { srv with store := createSession srv.store newToken req.profileName nowMs })

/-- Source `models.SyncPayload`: request and response body of POST /api/sync. -/
structure SyncPayload where
  lastSyncedAt : Nat
  workouts : List Workout
  completions : List Completion
deriving DecidableEq, Repr

/-- Source `Handler.Sync`: verifies the bearer token (401 → `none`); overwrites each
uploaded record's user id with the session's user id and upserts it in array
order; queries both modified-since deltas at the client watermark; updates the
server-side sync time bookkeeping (best effort); responds with
`{now, workouts, completions}`.  `nowUp` is the clock used by the upserts,
`nowResp` the `time.Now().UnixMilli()` taken for the response watermark
(the source reads the clock at each step; the calls happen in this order, so
`nowUp ≤ nowResp` for a monotone clock). -/
def syncHandler (st : StoreState) (token : String) (payload : SyncPayload)
    (nowUp nowResp : Nat) : Option (StoreState × SyncPayload) :=
  match verifySession st token with
  | none => none
  | some session =>
    let st := payload.workouts.foldl
      (fun s w => upsertWorkout s nowUp { w with userId := session.userId }) st
    let st := payload.completions.foldl
      (fun s c => upsertCompletion s nowUp { c with userId := session.userId }) st
    let workouts := getWorkoutsModifiedSince st session.userId payload.lastSyncedAt
    let completions := getCompletionsModifiedSince st session.userId payload.lastSyncedAt
    let st := updateLastSyncTime st session.userId nowResp
    some (st, { lastSyncedAt := nowResp, workouts := workouts, completions := completions })

/-! ## JSON marshalling of the sync response (Go `encoding/json` with the
struct tags of `models.go`) and the client side (`src/SyncService.js`,
`src/WorkoutContext.jsx`).

The client receives the response as parsed JSON objects; property access on a
key the object does not carry yields `undefined`.  JSON objects are modelled
as key/value lists. -/

/-- A JSON value as the JS client sees it. -/
inductive JsVal where
  | str : String → JsVal
  | num : Int → JsVal
  | boolean : Bool → JsVal
  | null : JsVal
  | arr : List JsVal → JsVal
  | obj : List (String × JsVal) → JsVal

/-- Marshalling of a `time.Time` value: `encoding/json` renders it as an
RFC3339 string.  The embedding renders the epoch-millisecond value as its
decimal string; the client code only tests presence and truthiness of these
strings (an RFC3339 string is never empty, and neither is a decimal one). -/
def timeJson (t : Nat) : JsVal := .str (toString t)

/-- JSON object for a `models.Interval` (tags: id, name, duration, color,
position). -/
def marshalInterval (i : Interval) : List (String × JsVal) :=
  [("id", .str i.id), ("name", .str i.name), ("duration", .num i.duration),
   ("color", .str i.color), ("position", .num i.position)]

/-- JSON object for a `models.Workout`: tags id, user_id, name, rounds,
intervals, created_at, updated_at, and deleted_at with `omitempty`
(key absent when the field is nil). -/
def marshalWorkout (w : Workout) : List (String × JsVal) :=
  [("id", .str w.id), ("user_id", .str w.userId), ("name", .str w.name),
   ("rounds", .num w.rounds), ("intervals", .arr (w.intervals.map (fun i => .obj (marshalInterval i)))),
   ("created_at", timeJson w.createdAt), ("updated_at", timeJson w.updatedAt)]
  ++ (match w.deletedAt with
      | none => []
      | some t => [("deleted_at", timeJson t)])

/-- JSON object for a `models.Completion` (tag deleted_at has `omitempty`;
completed_at has no `omitempty`, so a nil value marshals as null). -/
def marshalCompletion (c : Completion) : List (String × JsVal) :=
  [("id", .str c.id), ("user_id", .str c.userId), ("workout_id", .str c.workoutId),
   ("workout_name", .str c.workoutName), ("total_duration", .num c.totalDuration),
   ("elapsed_duration", .num c.elapsedDuration), ("completed", .boolean c.completed),
   ("started_at", timeJson c.startedAt),
   ("completed_at", match c.completedAt with | none => .null | some t => timeJson t),
   ("updated_at", timeJson c.updatedAt)]
  ++ (match c.deletedAt with
      | none => []
      | some t => [("deleted_at", timeJson t)])

/-- JS property access: `obj.k` is `undefined` (`none`) when the key is
absent. -/
def jsGet (o : List (String × JsVal)) (k : String) : Option JsVal :=
  (o.find? (fun p => p.1 = k)).map Prod.snd

/-- JS truthiness of a possibly-undefined value: `undefined`, `null`,
`false`, `0` and `""` are falsy. -/
def truthy : Option JsVal → Bool
  | none => false
  | some .null => false
  | some (.boolean b) => b
  | some (.num n) => n ≠ 0
  | some (.str s) => s ≠ ""
  | some (.arr _) => true
  | some (.obj _) => true

/-- Source `WorkoutContext.switchProfile`, local-replica replacement step: the code
runs `(syncResult.workouts || []).filter(w => !w.deletedAt)` on the parsed
server response and stores the result via `setWorkouts`. -/
def switchProfileWorkouts (respWorkouts : List (List (String × JsVal))) :
    List (List (String × JsVal)) :=
  respWorkouts.filter (fun w => ¬ truthy (jsGet w "deletedAt"))

/-- The completion arm of the same step:
`(syncResult.completions || []).filter(c => !c.deletedAt)`. -/
def switchProfileCompletions (respCompletions : List (List (String × JsVal))) :
    List (List (String × JsVal)) :=
  respCompletions.filter (fun c => ¬ truthy (jsGet c "deletedAt"))

/-- Source `SyncService.sync`, watermark update on a successful response:
`this.lastSyncTime = data.last_synced_at || Date.now()`.  The `||` falls
through to `Date.now()` when the field is absent or its value is falsy
(in particular `0`). -/
def clientStoreWatermark (respLastSyncedAt : Option Nat) (nowMs : Nat) : Nat :=
  match respLastSyncedAt with
  | some v => if v = 0 then nowMs else v
  | none => nowMs

/-! ## Projections used to state frame properties -/

/-- Forgets the loaded interval list of a query result, giving back the
`workouts` table row it came from. -/
def toRow (w : Workout) : WorkoutRow :=
  { id := w.id, userId := w.userId, name := w.name, rounds := w.rounds,
    createdAt := w.createdAt, updatedAt := w.updatedAt, deletedAt := w.deletedAt }

/-- The (id, profile id) column pair of the workouts table, in row order. -/
def idProfiles (l : List WorkoutRow) : List (String × String) :=
  l.map (fun r => (r.id, r.userId))

/-- The (id, profile id) column pair of the completions table, in row order. -/
def idProfilesC (l : List Completion) : List (String × String) :=
  l.map (fun r => (r.id, r.userId))

/-! ## Concrete inputs used by witnesses and counterexamples -/

/-- A two-interval workout used by the idempotent-upload witness. -/
def wC4 : Workout :=
  { id := "w1", userId := "alice", name := "hiit", rounds := 2,
    intervals := [
      { id := "i1", name := "work", duration := 30, color := "#ff0000", position := 0 },
      { id := "i2", name := "rest", duration := 15, color := "#00ff00", position := 1 }],
    createdAt := 1, updatedAt := 2, deletedAt := none }

/-- A store already holding one workout row `w1` and one completion `c1`
(used by the overwrite-frame witnesses). -/
def stC5 : StoreState :=
  { sessions := [],
    workouts := [{ id := "w1", userId := "alice", name := "old", rounds := 1,
                   createdAt := 11, updatedAt := 12, deletedAt := none }],
    workoutIntervals := [],
    completions := [{ id := "c1", userId := "alice", workoutId := "w1", workoutName := "old",
                      totalDuration := 90, elapsedDuration := 40, completed := false,
                      startedAt := 13, completedAt := none, updatedAt := 14, deletedAt := none }],
    syncMetadata := [] }

/-- An overwrite of `w1` arriving with different immutable fields. -/
def wC5 : Workout :=
  { id := "w1", userId := "mallory", name := "new", rounds := 3, intervals := [],
    createdAt := 0, updatedAt := 99, deletedAt := some 99 }

/-- A brand-new workout with an unset created-at (first-insert witness). -/
def wC5new : Workout :=
  { id := "w2", userId := "alice", name := "fresh", rounds := 1, intervals := [],
    createdAt := 0, updatedAt := 77, deletedAt := none }

/-- An overwrite of `c1` arriving with different immutable fields. -/
def cC5 : Completion :=
  { id := "c1", userId := "mallory", workoutId := "other", workoutName := "new",
    totalDuration := 500, elapsedDuration := 90, completed := true,
    startedAt := 1, completedAt := some 98, updatedAt := 99, deletedAt := none }

/-- A store holding a session for alice and a workout owned by bob
(cross-profile upsert witness). -/
def stC10 : StoreState :=
  { sessions := [{ token := "t", userId := "alice", createdAt := 0 }],
    workouts := [{ id := "w1", userId := "bob", name := "n", rounds := 1,
                   createdAt := 5, updatedAt := 6, deletedAt := none }],
    workoutIntervals := [], completions := [], syncMetadata := [] }

/-- A sync upload, authenticated as alice, writing to bob's record id. -/
def payloadC10 : SyncPayload :=
  { lastSyncedAt := 0,
    workouts := [{ id := "w1", userId := "whatever", name := "x", rounds := 2,
                   intervals := [], createdAt := 7, updatedAt := 8, deletedAt := none }],
    completions := [] }

/-- A store holding one live workout for alice (soft-delete witness). -/
def stC3 : StoreState :=
  { sessions := [],
    workouts := [{ id := "w1", userId := "alice", name := "n", rounds := 1,
                   createdAt := 10, updatedAt := 10, deletedAt := none }],
    workoutIntervals := [], completions := [], syncMetadata := [] }

/-- A tombstoned workout as the server would return it. -/
def wC2 : Workout :=
  { id := "w1", userId := "alice", name := "gone", rounds := 1, intervals := [],
    createdAt := 10, updatedAt := 20, deletedAt := some 30 }

/-- A tombstoned completion as the server would return it. -/
def cC2 : Completion :=
  { id := "c1", userId := "alice", workoutId := "w1", workoutName := "gone",
    totalDuration := 60, elapsedDuration := 60, completed := true,
    startedAt := 10, completedAt := some 15, updatedAt := 20, deletedAt := some 30 }

/-- Store for the reconcile-watermark scenarios: one session for alice. -/
def stC1 : StoreState :=
  { sessions := [{ token := "t", userId := "alice", createdAt := 0 }],
    workouts := [], workoutIntervals := [], completions := [], syncMetadata := [] }

/-- First upload of the counterexample: a workout whose client-supplied
updated-at (1000) lies in the future of the server clock (100). -/
def pC1 : SyncPayload :=
  { lastSyncedAt := 0,
    workouts := [{ id := "w1", userId := "x", name := "n", rounds := 1, intervals := [],
                   createdAt := 1, updatedAt := 1000, deletedAt := none }],
    completions := [] }

/-- Store state after the first counterexample reconcile call. -/
def st1C1 : StoreState :=
  { sessions := [{ token := "t", userId := "alice", createdAt := 0 }],
    workouts := [{ id := "w1", userId := "alice", name := "n", rounds := 1,
                   createdAt := 1, updatedAt := 1000, deletedAt := none }],
    workoutIntervals := [], completions := [], syncMetadata := [("alice", 100)] }

/-- Response of the first counterexample reconcile call (watermark 100). -/
def r1C1 : SyncPayload :=
  { lastSyncedAt := 100,
    workouts := [{ id := "w1", userId := "alice", name := "n", rounds := 1, intervals := [],
                   createdAt := 1, updatedAt := 1000, deletedAt := none }],
    completions := [] }

/-- Store state after the second counterexample reconcile call. -/
def st2C1 : StoreState :=
  { sessions := [{ token := "t", userId := "alice", createdAt := 0 }],
    workouts := [{ id := "w1", userId := "alice", name := "n", rounds := 1,
                   createdAt := 1, updatedAt := 1000, deletedAt := none }],
    workoutIntervals := [], completions := [], syncMetadata := [("alice", 200)] }

/-- Response of the second counterexample call: the future-dated record is
delivered again. -/
def r2C1 : SyncPayload :=
  { lastSyncedAt := 200,
    workouts := [{ id := "w1", userId := "alice", name := "n", rounds := 1, intervals := [],
                   createdAt := 1, updatedAt := 1000, deletedAt := none }],
    completions := [] }

/-- First upload of the well-clocked witness scenario: updated-at 50 is in
the past of the server clock. -/
def pC1w : SyncPayload :=
  { lastSyncedAt := 0,
    workouts := [{ id := "w1", userId := "x", name := "n", rounds := 1, intervals := [],
                   createdAt := 1, updatedAt := 50, deletedAt := none }],
    completions := [] }

/-- Store state after the first witness reconcile call. -/
def st1C1w : StoreState :=
  { sessions := [{ token := "t", userId := "alice", createdAt := 0 }],
    workouts := [{ id := "w1", userId := "alice", name := "n", rounds := 1,
                   createdAt := 1, updatedAt := 50, deletedAt := none }],
    workoutIntervals := [], completions := [], syncMetadata := [("alice", 100)] }

/-- Response of the first witness reconcile call. -/
def r1C1w : SyncPayload :=
  { lastSyncedAt := 100,
    workouts := [{ id := "w1", userId := "alice", name := "n", rounds := 1, intervals := [],
                   createdAt := 1, updatedAt := 50, deletedAt := none }],
    completions := [] }

/-- Second upload of the witness scenario: a fresh record at watermark 100. -/
def pC1w2 : SyncPayload :=
  { lastSyncedAt := 100,
    workouts := [{ id := "w2", userId := "x", name := "m", rounds := 1, intervals := [],
                   createdAt := 2, updatedAt := 150, deletedAt := none }],
    completions := [] }

/-- Store state after the second witness reconcile call. -/
def st2C1w : StoreState :=
  { sessions := [{ token := "t", userId := "alice", createdAt := 0 }],
    workouts := [{ id := "w1", userId := "alice", name := "n", rounds := 1,
                   createdAt := 1, updatedAt := 50, deletedAt := none },
                 { id := "w2", userId := "alice", name := "m", rounds := 1,
                   createdAt := 2, updatedAt := 150, deletedAt := none }],
    workoutIntervals := [], completions := [], syncMetadata := [("alice", 200)] }

/-- Response of the second witness reconcile call: only the fresh record. -/
def r2C1w : SyncPayload :=
  { lastSyncedAt := 200,
    workouts := [{ id := "w2", userId := "alice", name := "m", rounds := 1, intervals := [],
                   createdAt := 2, updatedAt := 150, deletedAt := none }],
    completions := [] }

/-! ## Helper lemmas about the store operations -/

/-- Number of `workout_intervals` rows belonging to a workout id. -/
def intervalRowCount (st : StoreState) (workoutID : String) : Nat :=
  (st.workoutIntervals.filter (fun r => r.workoutId = workoutID)).length

theorem intervalRowsOf_workoutId (wid : String) (ivs : List Interval) :
    ∀ r ∈ intervalRowsOf wid ivs, r.workoutId = wid := by
  intro r hr
  simp only [intervalRowsOf, List.mem_map] at hr
  obtain ⟨p, _, rfl⟩ := hr
  rfl

theorem intervalRowsOf_length (wid : String) (ivs : List Interval) :
    (intervalRowsOf wid ivs).length = ivs.length := by
  simp [intervalRowsOf]

theorem filter_not_then_filter_eq_nil (wid : String) (l : List IntervalRow) :
    (l.filter (fun r => ¬ (r.workoutId = wid))).filter (fun r => r.workoutId = wid) = [] := by
  induction l with
  | nil => rfl
  | cons a l ih =>
    by_cases h : a.workoutId = wid <;> simp [List.filter, h, ih]

/-- After any single upsert, the workout owns exactly its incoming intervals. -/
theorem intervalRowCount_upsertWorkout (s : StoreState) (t : Nat) (u : Workout) :
    intervalRowCount (upsertWorkout s t u) u.id = u.intervals.length := by
  unfold intervalRowCount upsertWorkout
  simp only [List.filter_append, List.length_append]
  rw [filter_not_then_filter_eq_nil]
  have hall : (intervalRowsOf u.id u.intervals).filter (fun r => r.workoutId = u.id)
      = intervalRowsOf u.id u.intervals := by
    rw [List.filter_eq_self]
    intro r hr
    simpa using intervalRowsOf_workoutId u.id u.intervals r hr
  rw [hall, intervalRowsOf_length]
  simp

theorem foldl_upsert_intervalRowCount (w : Workout) :
    ∀ (ups : List (Nat × Workout)) (s : StoreState),
      (∀ p ∈ ups, (p.2).id = w.id ∧ (p.2).intervals.length = w.intervals.length) →
      intervalRowCount s w.id = w.intervals.length →
      intervalRowCount (ups.foldl (fun s2 p => upsertWorkout s2 p.1 p.2) s) w.id
        = w.intervals.length := by
  intro ups
  induction ups with
  | nil => intro s _ hs; simpa using hs
  | cons p ups ih =>
    intro s hall hs
    have hp := hall p (List.mem_cons_self _ _)
    have hnext : intervalRowCount (upsertWorkout s p.1 p.2) w.id = w.intervals.length := by
      have := intervalRowCount_upsertWorkout s p.1 p.2
      rw [hp.1] at this
      rw [this, hp.2]
    exact ih (upsertWorkout s p.1 p.2) (fun q hq => hall q (List.mem_cons_of_mem _ hq)) hnext

/-- C4: `upsertTimer` is idempotent for the interval rows.  Uploading the
record once and then any further number of times with the same id and the
same interval content (the other fields, updated-at included, may differ)
leaves exactly the interval-row count of a single upload — no duplicate rows
accumulate; the count is the workout's interval-list length. -/
theorem upsertWorkout_idempotent_intervalRows (st : StoreState) (w : Workout) (t : Nat)
    (ups : List (Nat × Workout))
    (hsame : ∀ p ∈ ups, (p.2).id = w.id ∧ (p.2).intervals = w.intervals) :
    intervalRowCount (ups.foldl (fun s p => upsertWorkout s p.1 p.2) (upsertWorkout st t w)) w.id
      = intervalRowCount (upsertWorkout st t w) w.id
    ∧ intervalRowCount (upsertWorkout st t w) w.id = w.intervals.length := by
  have hone : intervalRowCount (upsertWorkout st t w) w.id = w.intervals.length :=
    intervalRowCount_upsertWorkout st t w
  refine ⟨?_, hone⟩
  rw [hone]
  exact foldl_upsert_intervalRowCount w ups (upsertWorkout st t w)
    (fun p hp => ⟨(hsame p hp).1, by rw [(hsame p hp).2]⟩) hone

/-- C4 witness: a concrete two-interval workout uploaded three more times
after the first upload keeps exactly two interval rows. -/
theorem upsertWorkout_idempotent_intervalRows_witness :
    (intervalRowCount
        (([(7, wC4), (8, wC4), (9, wC4)].foldl (fun s p => upsertWorkout s p.1 p.2)
          (upsertWorkout StoreState.empty 5 wC4))) wC4.id
      = intervalRowCount (upsertWorkout StoreState.empty 5 wC4) wC4.id)
    ∧ intervalRowCount (upsertWorkout StoreState.empty 5 wC4) wC4.id = wC4.intervals.length :=
  upsertWorkout_idempotent_intervalRows StoreState.empty wC4 5
    [(7, wC4), (8, wC4), (9, wC4)] (by decide)

/-- On an id conflict `upsertWorkout` takes the update branch:
the row list is mapped in place. -/
theorem upsertWorkout_workouts_of_conflict (st : StoreState) (now : Nat) (w : Workout)
    (h : st.workouts.any (fun r => r.id = w.id) = true) :
    (upsertWorkout st now w).workouts = st.workouts.map (fun r =>
      if r.id = w.id then
        { r with name := w.name, rounds := w.rounds,
                 updatedAt := if w.updatedAt = 0 then now else w.updatedAt,
                 deletedAt := w.deletedAt }
      else r) := by
  unfold upsertWorkout
  simp [h]

/-- Without an id conflict `upsertWorkout` appends a fresh row, filling zero
timestamps from `now`. -/
theorem upsertWorkout_workouts_of_fresh (st : StoreState) (now : Nat) (w : Workout)
    (h : st.workouts.any (fun r => r.id = w.id) = false) :
    (upsertWorkout st now w).workouts = st.workouts ++
      [{ id := w.id, userId := w.userId, name := w.name, rounds := w.rounds,
         createdAt := if w.createdAt = 0 then now else w.createdAt,
         updatedAt := if w.updatedAt = 0 then now else w.updatedAt,
         deletedAt := w.deletedAt }] := by
  unfold upsertWorkout
  simp [h]

/-- On an id conflict `upsertCompletion` maps the row list in place. -/
theorem upsertCompletion_completions_of_conflict (st : StoreState) (now : Nat) (c : Completion)
    (h : st.completions.any (fun r => r.id = c.id) = true) :
    (upsertCompletion st now c).completions = st.completions.map (fun r =>
      if r.id = c.id then
        { r with elapsedDuration := c.elapsedDuration, completed := c.completed,
                 completedAt := c.completedAt,
                 updatedAt := if c.updatedAt = 0 then now else c.updatedAt,
                 deletedAt := c.deletedAt }
      else r) := by
  unfold upsertCompletion
  simp [h]

/-- C5: overwrite keeps the immutable columns.  On an id conflict, the
workouts table keeps every row's created-at, user id and id, and every row
carrying the incoming id receives exactly the mutable columns (name, rounds,
updated-at, deleted-at); a first insert fills created-at from `now` only when
the incoming record has it unset.  On a completion conflict, started-at,
total-duration, user id (and id, workout id, workout name) are unchanged
while elapsed duration, completed flag, completed-at, updated-at, deleted-at
are overwritten. -/
theorem upsert_overwrite_immutable_fields (st : StoreState) (now : Nat) (w : Workout)
    (c : Completion) :
    (st.workouts.any (fun r => r.id = w.id) = true →
      ((upsertWorkout st now w).workouts.map WorkoutRow.createdAt
          = st.workouts.map WorkoutRow.createdAt
        ∧ (upsertWorkout st now w).workouts.map WorkoutRow.userId
          = st.workouts.map WorkoutRow.userId
        ∧ (upsertWorkout st now w).workouts.map WorkoutRow.id
          = st.workouts.map WorkoutRow.id)
      ∧ (∀ r ∈ (upsertWorkout st now w).workouts, r.id = w.id →
          r.name = w.name ∧ r.rounds = w.rounds
          ∧ r.updatedAt = (if w.updatedAt = 0 then now else w.updatedAt)
          ∧ r.deletedAt = w.deletedAt))
    ∧ (st.workouts.any (fun r => r.id = w.id) = false →
        (upsertWorkout st now w).workouts.map WorkoutRow.createdAt
          = st.workouts.map WorkoutRow.createdAt
            ++ [if w.createdAt = 0 then now else w.createdAt])
    ∧ (st.completions.any (fun r => r.id = c.id) = true →
      ((upsertCompletion st now c).completions.map Completion.startedAt
          = st.completions.map Completion.startedAt
        ∧ (upsertCompletion st now c).completions.map Completion.totalDuration
          = st.completions.map Completion.totalDuration
        ∧ (upsertCompletion st now c).completions.map Completion.userId
          = st.completions.map Completion.userId
        ∧ (upsertCompletion st now c).completions.map Completion.id
          = st.completions.map Completion.id
        ∧ (upsertCompletion st now c).completions.map Completion.workoutId
          = st.completions.map Completion.workoutId
        ∧ (upsertCompletion st now c).completions.map Completion.workoutName
          = st.completions.map Completion.workoutName)
      ∧ (∀ r ∈ (upsertCompletion st now c).completions, r.id = c.id →
          r.elapsedDuration = c.elapsedDuration ∧ r.completed = c.completed
          ∧ r.completedAt = c.completedAt
          ∧ r.updatedAt = (if c.updatedAt = 0 then now else c.updatedAt)
          ∧ r.deletedAt = c.deletedAt)) := by
  refine ⟨fun hw => ⟨⟨?_, ?_, ?_⟩, ?_⟩, fun hw => ?_, fun hc => ⟨⟨?_, ?_, ?_, ?_, ?_, ?_⟩, ?_⟩⟩
  all_goals
    first
      | (rw [upsertWorkout_workouts_of_conflict st now w hw, List.map_map]
         refine List.map_eq_map_iff.mpr (fun r _ => ?_)
         by_cases h : r.id = w.id <;> simp [h])
      | (rw [upsertWorkout_workouts_of_conflict st now w hw]
         intro r hr hid
         obtain ⟨a, _, rfl⟩ := List.mem_map.mp hr
         by_cases h : a.id = w.id
         · simp [h]
         · simp only [if_neg h] at hid ⊢
           exact absurd hid h)
      | (rw [upsertWorkout_workouts_of_fresh st now w hw]
         simp)
      | (rw [upsertCompletion_completions_of_conflict st now c hc, List.map_map]
         refine List.map_eq_map_iff.mpr (fun r _ => ?_)
         by_cases h : r.id = c.id <;> simp [h])
      | (rw [upsertCompletion_completions_of_conflict st now c hc]
         intro r hr hid
         obtain ⟨a, _, rfl⟩ := List.mem_map.mp hr
         by_cases h : a.id = c.id
         · simp [h]
         · simp only [if_neg h] at hid ⊢
           exact absurd hid h)

/-- C5 witness: concrete overwrites of an existing workout and completion,
plus a first insert with unset created-at. -/
theorem upsert_overwrite_immutable_fields_witness :
    (((upsertWorkout stC5 50 wC5).workouts.map WorkoutRow.createdAt
        = stC5.workouts.map WorkoutRow.createdAt
      ∧ (upsertWorkout stC5 50 wC5).workouts.map WorkoutRow.userId
        = stC5.workouts.map WorkoutRow.userId
      ∧ (upsertWorkout stC5 50 wC5).workouts.map WorkoutRow.id
        = stC5.workouts.map WorkoutRow.id)
      ∧ (∀ r ∈ (upsertWorkout stC5 50 wC5).workouts, r.id = wC5.id →
          r.name = wC5.name ∧ r.rounds = wC5.rounds
          ∧ r.updatedAt = (if wC5.updatedAt = 0 then 50 else wC5.updatedAt)
          ∧ r.deletedAt = wC5.deletedAt))
    ∧ ((upsertWorkout stC5 50 wC5new).workouts.map WorkoutRow.createdAt
        = stC5.workouts.map WorkoutRow.createdAt
          ++ [if wC5new.createdAt = 0 then 50 else wC5new.createdAt])
    ∧ (((upsertCompletion stC5 50 cC5).completions.map Completion.startedAt
        = stC5.completions.map Completion.startedAt
      ∧ (upsertCompletion stC5 50 cC5).completions.map Completion.totalDuration
        = stC5.completions.map Completion.totalDuration
      ∧ (upsertCompletion stC5 50 cC5).completions.map Completion.userId
        = stC5.completions.map Completion.userId
      ∧ (upsertCompletion stC5 50 cC5).completions.map Completion.id
        = stC5.completions.map Completion.id
      ∧ (upsertCompletion stC5 50 cC5).completions.map Completion.workoutId
        = stC5.completions.map Completion.workoutId
      ∧ (upsertCompletion stC5 50 cC5).completions.map Completion.workoutName
        = stC5.completions.map Completion.workoutName)
      ∧ (∀ r ∈ (upsertCompletion stC5 50 cC5).completions, r.id = cC5.id →
          r.elapsedDuration = cC5.elapsedDuration ∧ r.completed = cC5.completed
          ∧ r.completedAt = cC5.completedAt
          ∧ r.updatedAt = (if cC5.updatedAt = 0 then 50 else cC5.updatedAt)
          ∧ r.deletedAt = cC5.deletedAt)) :=
  ⟨(upsert_overwrite_immutable_fields stC5 50 wC5 cC5).1 (by decide),
   (upsert_overwrite_immutable_fields stC5 50 wC5new cC5).2.1 (by decide),
   (upsert_overwrite_immutable_fields stC5 50 wC5 cC5).2.2 (by decide)⟩

/-! ## Frame lemmas -/

theorem upsertCompletion_workouts_frame (st : StoreState) (now : Nat) (c : Completion) :
    (upsertCompletion st now c).workouts = st.workouts := rfl

theorem upsertWorkout_completions_frame (st : StoreState) (now : Nat) (w : Workout) :
    (upsertWorkout st now w).completions = st.completions := rfl

theorem upsertWorkout_sessions_frame (st : StoreState) (now : Nat) (w : Workout) :
    (upsertWorkout st now w).sessions = st.sessions := rfl

theorem upsertCompletion_sessions_frame (st : StoreState) (now : Nat) (c : Completion) :
    (upsertCompletion st now c).sessions = st.sessions := rfl

theorem updateLastSyncTime_workouts_frame (st : StoreState) (uid : String) (t : Nat) :
    (updateLastSyncTime st uid t).workouts = st.workouts := by
  unfold updateLastSyncTime
  split <;> rfl

theorem updateLastSyncTime_completions_frame (st : StoreState) (uid : String) (t : Nat) :
    (updateLastSyncTime st uid t).completions = st.completions := by
  unfold updateLastSyncTime
  split <;> rfl

theorem foldl_upsertCompletion_workouts_frame (now : Nat) (f : Completion → Completion) :
    ∀ (cs : List Completion) (st : StoreState),
      ((cs.foldl (fun s c => upsertCompletion s now (f c)) st)).workouts = st.workouts := by
  intro cs
  induction cs with
  | nil => intro st; rfl
  | cons c cs ih => intro st; rw [List.foldl_cons, ih, upsertCompletion_workouts_frame]

theorem foldl_upsertWorkout_completions_frame (now : Nat) (f : Workout → Workout) :
    ∀ (ws : List Workout) (st : StoreState),
      ((ws.foldl (fun s w => upsertWorkout s now (f w)) st)).completions = st.completions := by
  intro ws
  induction ws with
  | nil => intro st; rfl
  | cons w ws ih => intro st; rw [List.foldl_cons, ih, upsertWorkout_completions_frame]

/-! ## Profile-id immutability (claim C10) -/

theorem upsertWorkout_extends_idProfiles (st : StoreState) (now : Nat) (w : Workout) :
    idProfiles st.workouts <+: idProfiles (upsertWorkout st now w).workouts := by
  by_cases h : st.workouts.any (fun r => r.id = w.id) = true
  · rw [upsertWorkout_workouts_of_conflict st now w h]
    have heq : idProfiles (st.workouts.map (fun r =>
        if r.id = w.id then
          { r with name := w.name, rounds := w.rounds,
                   updatedAt := if w.updatedAt = 0 then now else w.updatedAt,
                   deletedAt := w.deletedAt }
        else r)) = idProfiles st.workouts := by
      unfold idProfiles
      rw [List.map_map]
      refine List.map_eq_map_iff.mpr (fun r _ => ?_)
      by_cases hr : r.id = w.id <;> simp [hr]
    rw [heq]
  · rw [upsertWorkout_workouts_of_fresh st now w (by simpa using h)]
    unfold idProfiles
    rw [List.map_append]
    exact List.prefix_append _ _

theorem upsertCompletion_extends_idProfilesC (st : StoreState) (now : Nat) (c : Completion) :
    idProfilesC st.completions <+: idProfilesC (upsertCompletion st now c).completions := by
  by_cases h : st.completions.any (fun r => r.id = c.id) = true
  · rw [upsertCompletion_completions_of_conflict st now c h]
    have heq : idProfilesC (st.completions.map (fun r =>
        if r.id = c.id then
          { r with elapsedDuration := c.elapsedDuration, completed := c.completed,
                   completedAt := c.completedAt,
                   updatedAt := if c.updatedAt = 0 then now else c.updatedAt,
                   deletedAt := c.deletedAt }
        else r)) = idProfilesC st.completions := by
      unfold idProfilesC
      rw [List.map_map]
      refine List.map_eq_map_iff.mpr (fun r _ => ?_)
      by_cases hr : r.id = c.id <;> simp [hr]
    rw [heq]
  · have h2 : st.completions.any (fun r => r.id = c.id) = false := by simpa using h
    unfold upsertCompletion idProfilesC
    simp only [h2, Bool.false_eq_true, if_false, List.map_append]
    exact List.prefix_append _ _

theorem foldl_upsertWorkout_extends_idProfiles (now : Nat) (f : Workout → Workout) :
    ∀ (ws : List Workout) (st : StoreState),
      idProfiles st.workouts <+:
        idProfiles ((ws.foldl (fun s w => upsertWorkout s now (f w)) st)).workouts := by
  intro ws
  induction ws with
  | nil => intro st; exact List.prefix_refl _
  | cons w ws ih =>
    intro st
    rw [List.foldl_cons]
    exact (upsertWorkout_extends_idProfiles st now (f w)).trans (ih (upsertWorkout st now (f w)))

theorem foldl_upsertCompletion_extends_idProfilesC (now : Nat) (f : Completion → Completion) :
    ∀ (cs : List Completion) (st : StoreState),
      idProfilesC st.completions <+:
        idProfilesC ((cs.foldl (fun s c => upsertCompletion s now (f c)) st)).completions := by
  intro cs
  induction cs with
  | nil => intro st; exact List.prefix_refl _
  | cons c cs ih =>
    intro st
    rw [List.foldl_cons]
    exact (upsertCompletion_extends_idProfilesC st now (f c)).trans
      (ih (upsertCompletion st now (f c)))

/-- C10: a record's profile id never changes after first insert.  Both store
upserts leave the (id, profile id) pairs of all existing rows in place,
only ever appending fresh rows; consequently a whole reconcile call — even
one authenticated as a different profile, which overwrites the uploaded
records' user ids with the session's profile — preserves every stored
record's (id, profile id) pair: records never migrate between profile
partitions. -/
theorem profileId_never_changes (st : StoreState) (now : Nat) (w : Workout) (c : Completion)
    (st0 st2 : StoreState) (token : String) (payload : SyncPayload) (nowUp nowResp : Nat)
    (resp : SyncPayload)
    (h : syncHandler st0 token payload nowUp nowResp = some (st2, resp)) :
    idProfiles st.workouts <+: idProfiles (upsertWorkout st now w).workouts
    ∧ idProfilesC st.completions <+: idProfilesC (upsertCompletion st now c).completions
    ∧ idProfiles st0.workouts <+: idProfiles st2.workouts
    ∧ idProfilesC st0.completions <+: idProfilesC st2.completions := by
  refine ⟨upsertWorkout_extends_idProfiles st now w,
          upsertCompletion_extends_idProfilesC st now c, ?_, ?_⟩ <;>
  · unfold syncHandler at h
    cases hv : verifySession st0 token with
    | none => rw [hv] at h; exact absurd h (by simp)
    | some sess =>
      rw [hv] at h
      simp only [Option.some.injEq, Prod.mk.injEq] at h
      obtain ⟨hst, _⟩ := h
      rw [← hst]
      first
        | (rw [updateLastSyncTime_workouts_frame,
              foldl_upsertCompletion_workouts_frame nowUp (fun c0 => { c0 with userId := sess.userId })]
           exact foldl_upsertWorkout_extends_idProfiles nowUp
             (fun w0 => { w0 with userId := sess.userId }) payload.workouts st0)
        | (rw [updateLastSyncTime_completions_frame]
           refine List.IsPrefix.trans ?_ (foldl_upsertCompletion_extends_idProfilesC nowUp
             (fun c0 => { c0 with userId := sess.userId }) payload.completions _)
           rw [foldl_upsertWorkout_completions_frame nowUp
             (fun w0 => { w0 with userId := sess.userId }) payload.workouts st0])

/-- C10 witness: alice's sync writes to bob's record id; the record stays in
bob's partition. -/
theorem profileId_never_changes_witness :
    (idProfiles stC10.workouts <+: idProfiles (upsertWorkout stC10 40 wC5).workouts
    ∧ idProfilesC stC10.completions <+: idProfilesC (upsertCompletion stC10 40 cC5).completions
    ∧ idProfiles stC10.workouts <+:
        idProfiles ({ sessions := [{ token := "t", userId := "alice", createdAt := 0 }],
                      workouts := [{ id := "w1", userId := "bob", name := "x", rounds := 2,
                                     createdAt := 5, updatedAt := 8, deletedAt := none }],
                      workoutIntervals := [], completions := [],
                      syncMetadata := [("alice", 50)] } : StoreState).workouts
    ∧ idProfilesC stC10.completions <+:
        idProfilesC ({ sessions := [{ token := "t", userId := "alice", createdAt := 0 }],
                       workouts := [{ id := "w1", userId := "bob", name := "x", rounds := 2,
                                      createdAt := 5, updatedAt := 8, deletedAt := none }],
                       workoutIntervals := [], completions := [],
                       syncMetadata := [("alice", 50)] } : StoreState).completions) :=
  profileId_never_changes stC10 40 wC5 cC5 stC10 _ "t" payloadC10 40 50
    { lastSyncedAt := 50, workouts := [], completions := [] } (by decide)

/-! ## Soft-delete visibility (claim C3) -/

/-- C3: after a soft delete, the tombstoned record is invisible to
`getTimer` (NotFound, modelled `none`) yet any changed-since query with a
watermark earlier than the deletion still returns it, with `deleted-at`
set to the deletion time. -/
theorem softDelete_visibility (st : StoreState) (uid wid : String) (now since : Nat)
    (hmem : ∃ r ∈ st.workouts, r.id = wid ∧ r.userId = uid)
    (hsince : since < now) :
    getWorkout (deleteWorkout st uid wid now) uid wid = none
    ∧ ∃ w ∈ getWorkoutsModifiedSince (deleteWorkout st uid wid now) uid since,
        w.id = wid ∧ w.deletedAt = some now := by
  constructor
  · unfold getWorkout
    rw [Option.map_eq_none', List.find?_eq_none]
    intro r hr
    unfold deleteWorkout at hr
    simp only [List.mem_map] at hr
    obtain ⟨a, _, rfl⟩ := hr
    by_cases h : a.id = wid ∧ a.userId = uid
    · simp [h]
    · simp only [if_neg h, decide_eq_true_eq]
      intro hp
      exact h ⟨hp.1, hp.2.1⟩
  · obtain ⟨r, hr, hid, huid⟩ := hmem
    have hmem2 : ({ r with deletedAt := some now, updatedAt := now } : WorkoutRow)
        ∈ (deleteWorkout st uid wid now).workouts := by
      unfold deleteWorkout
      simp only [List.mem_map]
      exact ⟨r, hr, by rw [if_pos ⟨hid, huid⟩]⟩
    refine ⟨attachIntervals (deleteWorkout st uid wid now)
      { r with deletedAt := some now, updatedAt := now }, ?_, hid, rfl⟩
    unfold getWorkoutsModifiedSince
    refine List.mem_map.mpr ⟨{ r with deletedAt := some now, updatedAt := now }, ?_, rfl⟩
    rw [List.mem_insertionSort]
    rw [List.mem_filter]
    exact ⟨hmem2, by simpa using ⟨huid, hsince⟩⟩

/-- C3 witness: deleting alice's workout `w1` at time 100 hides it from
`getWorkout` and surfaces it, tombstoned, to a query at watermark 50. -/
theorem softDelete_visibility_witness :
    getWorkout (deleteWorkout stC3 "alice" "w1" 100) "alice" "w1" = none
    ∧ ∃ w ∈ getWorkoutsModifiedSince (deleteWorkout stC3 "alice" "w1" 100) "alice" 50,
        w.id = "w1" ∧ w.deletedAt = some 100 :=
  softDelete_visibility stC3 "alice" "w1" 100 50 (by decide) (by decide)

/-! ## Changed-since query contract (claim C8) -/

/-- C8: `timersChangedSince(profileId, watermark)` returns exactly the
timers of that profile whose updated-at strictly exceeds the watermark —
the characterizing filter never inspects `deleted-at`, so tombstoned timers
are included — ordered most-recently-updated first, and every returned
timer carries the full interval-row set of its id, ordered by position. -/
theorem timersChangedSince_spec (st : StoreState) (uid : String) (since : Nat) :
    ((getWorkoutsModifiedSince st uid since).map toRow).Perm
        (st.workouts.filter (fun r => r.userId = uid ∧ since < r.updatedAt))
    ∧ (getWorkoutsModifiedSince st uid since).Pairwise
        (fun a b => b.updatedAt ≤ a.updatedAt)
    ∧ ∀ w ∈ getWorkoutsModifiedSince st uid since,
        w.intervals.Perm
          ((st.workoutIntervals.filter (fun r => r.workoutId = w.id)).map toInterval)
        ∧ w.intervals.Pairwise (fun a b => a.position ≤ b.position) := by
  refine ⟨?_, ?_, ?_⟩
  · unfold getWorkoutsModifiedSince
    rw [List.map_map]
    have hid : toRow ∘ attachIntervals st = id := rfl
    rw [hid, List.map_id]
    exact List.perm_insertionSort updDescRow _
  · unfold getWorkoutsModifiedSince
    refine List.Pairwise.map (attachIntervals st) (fun a b hab => hab) ?_
    exact List.sorted_insertionSort updDescRow _
  · intro w hw
    unfold getWorkoutsModifiedSince at hw
    obtain ⟨r, _, rfl⟩ := List.mem_map.mp hw
    constructor
    · exact (List.perm_insertionSort posLe _).map toInterval
    · exact List.Pairwise.map toInterval (fun a b hab => hab)
        (List.sorted_insertionSort posLe _)

/-! ## Rate-limiter behaviour -/

theorem find?_append_of_none {α} (p : α → Bool) (l1 l2 : List α) (h : l1.find? p = none) :
    (l1 ++ l2).find? p = l2.find? p := by
  induction l1 with
  | nil => rfl
  | cons a l ih =>
    cases hpa : p a with
    | true => simp [List.find?, hpa] at h
    | false =>
      simp only [List.find?, hpa] at h
      simpa [List.find?, hpa] using ih h

theorem find?_map_update (m : List (String × Bucket)) (k : String) (b : Bucket)
    (h : m.any (fun p => p.1 = k) = true) :
    (m.map (fun p => if p.1 = k then (k, b) else p)).find? (fun p => p.1 = k)
      = some (k, b) := by
  induction m with
  | nil => simp at h
  | cons a m ih =>
    by_cases ha : a.1 = k
    · simp [List.find?, ha]
    · have h2 : m.any (fun p => p.1 = k) = true := by
        simpa [List.any_cons, ha] using h
      simpa [List.find?, ha] using ih h2

theorem find?_putBucket_self (m : List (String × Bucket)) (k : String) (b : Bucket) :
    (putBucket m k b).find? (fun p => p.1 = k) = some (k, b) := by
  unfold putBucket
  split
  case isTrue h => exact find?_map_update m k b h
  case isFalse h =>
    have hnone : m.find? (fun p => p.1 = k) = none := by
      rw [List.find?_eq_none]
      intro x hx hpx
      exact h (List.any_eq_true.mpr ⟨x, hx, hpx⟩)
    rw [find?_append_of_none _ _ _ hnone]
    simp [List.find?]

/-- Behaviour of `Allow` on the "login" class when no bucket exists yet for the key:
a full bucket (capacity 2) is created and one token is consumed. -/
theorem rlAllow_fresh (m : List (String × Bucket)) (key : String) (now : ℚ)
    (hf : m.find? (fun p => p.1 = key ++ ":" ++ "login") = none) :
    rlAllow m key "login" now
      = (true, putBucket m (key ++ ":" ++ "login")
          { tokens := 1, lastRefill := now, rate := 1/2, capacity := 2 }) := by
  unfold rlAllow limitParams
  rw [if_pos rfl]
  simp only [hf, Option.map_none']
  norm_num

/-- Behaviour of `Allow` on the "login" class when the key's bucket exists: refill capped
at the bucket's capacity, then consume one token when available. -/
theorem rlAllow_found (m : List (String × Bucket)) (key : String) (now : ℚ) (b : Bucket)
    (hf : m.find? (fun p => p.1 = key ++ ":" ++ "login")
      = some (key ++ ":" ++ "login", b)) :
    rlAllow m key "login" now
      = (if 1 ≤ min b.capacity (b.tokens + (now - b.lastRefill) * b.rate) then
          (true, putBucket m (key ++ ":" ++ "login")
            { b with tokens := min b.capacity (b.tokens + (now - b.lastRefill) * b.rate) - 1,
                     lastRefill := now })
        else
          (false, putBucket m (key ++ ":" ++ "login")
            { b with tokens := min b.capacity (b.tokens + (now - b.lastRefill) * b.rate),
                     lastRefill := now })) := by
  unfold rlAllow limitParams
  rw [if_pos rfl]
  simp only [hf, Option.map_some']

/-- Every branch of `AuthInit` carries the rate limiter's updated buckets. -/
theorem authInit_buckets (pw : String) (srv : ServerState) (ip : String) (req : AuthRequest)
    (tok : String) (tsec : ℚ) (tms : Nat) :
    ((authInit pw srv ip req tok tsec tms).2).buckets
      = (rlAllow srv.buckets ip "login" tsec).2 := by
  simp only [authInit]
  split
  · rfl
  · split
    · rfl
    · split <;> rfl

/-- When the rate limiter denies, `AuthInit` answers 429 without touching
the store — in particular without comparing any password. -/
theorem authInit_denied (pw : String) (srv : ServerState) (ip : String) (req : AuthRequest)
    (tok : String) (tsec : ℚ) (tms : Nat)
    (h : (rlAllow srv.buckets ip "login" tsec).1 = false) :
    (authInit pw srv ip req tok tsec tms).1 = .rateLimited
    ∧ ((authInit pw srv ip req tok tsec tms).2).store = srv.store := by
  simp only [authInit]
  rw [if_pos h]
  exact ⟨rfl, rfl⟩

/-- When the rate limiter allows, `AuthInit` never answers 429. -/
theorem authInit_allowed_not_rateLimited (pw : String) (srv : ServerState) (ip : String)
    (req : AuthRequest) (tok : String) (tsec : ℚ) (tms : Nat)
    (h : (rlAllow srv.buckets ip "login" tsec).1 = true) :
    (authInit pw srv ip req tok tsec tms).1 ≠ .rateLimited := by
  simp only [authInit]
  rw [if_neg (by simp [h])]
  split
  · simp
  · split <;> simp

/-! ## Password gate (claim C7) -/

/-- C7: with a server password configured, `auth/init` with a differing hash
answers Unauthorized and the session table is untouched; with no password
configured, any supplied hash — the request's hash is arbitrary here,
including the empty string — yields a session token (given the required
nonempty profile name and an admitted rate-limit check). -/
theorem authInit_password_gate (pw : String) (srv : ServerState) (ip : String)
    (req : AuthRequest) (tok : String) (tsec : ℚ) (tms : Nat)
    (hallow : (rlAllow srv.buckets ip "login" tsec).1 = true) :
    (pw ≠ "" → req.passwordHash ≠ pw →
      (authInit pw srv ip req tok tsec tms).1 = .unauthorized
      ∧ ((authInit pw srv ip req tok tsec tms).2).store.sessions = srv.store.sessions)
    ∧ (pw = "" → req.profileName ≠ "" →
      (authInit pw srv ip req tok tsec tms).1 = .ok tok) := by
  have hno : ¬((rlAllow srv.buckets ip "login" tsec).1 = false) := by simp [hallow]
  constructor
  · intro h1 h2
    simp only [authInit]
    rw [if_neg hno, if_pos ⟨h1, h2⟩]
    exact ⟨rfl, rfl⟩
  · intro h1 h2
    simp only [authInit]
    rw [if_neg hno, if_neg (by simp [h1]), if_neg h2]

/-- C7 witness: wrong hash against password hash "h" is Unauthorized with no
session created; empty hash with no configured password yields the token. -/
theorem authInit_password_gate_witness :
    ((authInit "h" ⟨StoreState.empty, []⟩ "ip" ⟨"alice", "wrong"⟩ "t" 0 5).1 = .unauthorized
      ∧ ((authInit "h" ⟨StoreState.empty, []⟩ "ip" ⟨"alice", "wrong"⟩ "t" 0 5).2).store.sessions
        = (⟨StoreState.empty, []⟩ : ServerState).store.sessions)
    ∧ (authInit "" ⟨StoreState.empty, []⟩ "ip" ⟨"alice", ""⟩ "t" 0 5).1 = .ok "t" :=
  ⟨(authInit_password_gate "h" ⟨StoreState.empty, []⟩ "ip" ⟨"alice", "wrong"⟩ "t" 0 5
      (by rw [rlAllow_fresh ([] : List (String × Bucket)) "ip" 0 rfl])).1
      (by decide) (by decide),
   (authInit_password_gate "" ⟨StoreState.empty, []⟩ "ip" ⟨"alice", ""⟩ "t" 0 5
      (by rw [rlAllow_fresh ([] : List (String × Bucket)) "ip" 0 rfl])).2 rfl (by decide)⟩

/-! ## Rate-limit scenario (claim C6) -/

/-- C6: the "login" token bucket (capacity 2, refill 0.5 tokens/sec — see
`limitParams`) admits a burst of two `auth/init` calls from a fresh client
address, and a third call within two seconds of the first is answered
RateLimited — a constructor distinct from Unauthorized — for every request
body and configured password (the denial happens before any password
comparison: the outcome does not depend on `req3` or `pw`), and the third
call leaves the store untouched. -/
theorem authInit_three_rapid_rateLimited (pw : String) (srv : ServerState) (ip : String)
    (req1 req2 req3 : AuthRequest) (tok1 tok2 tok3 : String)
    (t1 t2 t3 : ℚ) (m1 m2 m3 : Nat)
    (hfresh : srv.buckets.find? (fun p => p.1 = ip ++ ":" ++ "login") = none)
    (h12 : t1 ≤ t2) (h23 : t2 ≤ t3) (hwin : t3 < t1 + 2) :
    (authInit pw srv ip req1 tok1 t1 m1).1 ≠ .rateLimited
    ∧ (authInit pw (authInit pw srv ip req1 tok1 t1 m1).2 ip req2 tok2 t2 m2).1 ≠ .rateLimited
    ∧ (authInit pw (authInit pw (authInit pw srv ip req1 tok1 t1 m1).2 ip req2 tok2 t2 m2).2
        ip req3 tok3 t3 m3).1 = .rateLimited
    ∧ (authInit pw (authInit pw (authInit pw srv ip req1 tok1 t1 m1).2 ip req2 tok2 t2 m2).2
        ip req3 tok3 t3 m3).2.store
      = ((authInit pw (authInit pw srv ip req1 tok1 t1 m1).2 ip req2 tok2 t2 m2).2).store := by
  have e1 : rlAllow srv.buckets ip "login" t1
      = (true, putBucket srv.buckets (ip ++ ":" ++ "login")
          { tokens := 1, lastRefill := t1, rate := 1/2, capacity := 2 }) :=
    rlAllow_fresh _ _ _ hfresh
  have hb1 : (authInit pw srv ip req1 tok1 t1 m1).2.buckets
      = putBucket srv.buckets (ip ++ ":" ++ "login")
          { tokens := 1, lastRefill := t1, rate := 1/2, capacity := 2 } := by
    rw [authInit_buckets, e1]
  have hf1 := find?_putBucket_self srv.buckets (ip ++ ":" ++ "login")
    { tokens := 1, lastRefill := t1, rate := 1/2, capacity := 2 }
  have hmin2 : min (2:ℚ) (1 + (t2 - t1) * (1/2)) = 1 + (t2 - t1) * (1/2) :=
    min_eq_right (by linarith)
  have hge1 : (1:ℚ) ≤ min (2:ℚ) (1 + (t2 - t1) * (1/2)) :=
    le_min (by norm_num) (by linarith)
  have e2 : rlAllow (putBucket srv.buckets (ip ++ ":" ++ "login")
        { tokens := 1, lastRefill := t1, rate := 1/2, capacity := 2 }) ip "login" t2
      = (true, putBucket (putBucket srv.buckets (ip ++ ":" ++ "login")
            { tokens := 1, lastRefill := t1, rate := 1/2, capacity := 2 }) (ip ++ ":" ++ "login")
          { tokens := 1 + (t2 - t1) * (1/2) - 1, lastRefill := t2, rate := 1/2, capacity := 2 }) := by
    rw [rlAllow_found _ _ _ _ hf1]
    split
    · simp only [hmin2]
    · rename_i hcond
      exact absurd hge1 hcond
  have hb2 : (authInit pw (authInit pw srv ip req1 tok1 t1 m1).2 ip req2 tok2 t2 m2).2.buckets
      = putBucket (putBucket srv.buckets (ip ++ ":" ++ "login")
            { tokens := 1, lastRefill := t1, rate := 1/2, capacity := 2 }) (ip ++ ":" ++ "login")
          { tokens := 1 + (t2 - t1) * (1/2) - 1, lastRefill := t2, rate := 1/2, capacity := 2 } := by
    rw [authInit_buckets, hb1, e2]
  have hf2 := find?_putBucket_self (putBucket srv.buckets (ip ++ ":" ++ "login")
      { tokens := 1, lastRefill := t1, rate := 1/2, capacity := 2 }) (ip ++ ":" ++ "login")
    { tokens := 1 + (t2 - t1) * (1/2) - 1, lastRefill := t2, rate := 1/2, capacity := 2 }
  have hlow : ¬ ((1:ℚ) ≤ min (2:ℚ)
      ((1 + (t2 - t1) * (1/2) - 1) + (t3 - t2) * (1/2))) := by
    intro hc
    have hr := le_trans hc (min_le_right (2:ℚ) _)
    linarith
  have e3 : (rlAllow (putBucket (putBucket srv.buckets (ip ++ ":" ++ "login")
        { tokens := 1, lastRefill := t1, rate := 1/2, capacity := 2 }) (ip ++ ":" ++ "login")
          { tokens := 1 + (t2 - t1) * (1/2) - 1, lastRefill := t2, rate := 1/2, capacity := 2 })
      ip "login" t3).1 = false := by
    rw [rlAllow_found _ _ _ _ hf2]
    split
    · rename_i hcond
      exact absurd hcond hlow
    · rfl
  have h3 := authInit_denied pw
    (authInit pw (authInit pw srv ip req1 tok1 t1 m1).2 ip req2 tok2 t2 m2).2 ip req3 tok3 t3 m3
    (by rw [hb2]; exact e3)
  refine ⟨?_, ?_, h3.1, h3.2⟩
  · exact authInit_allowed_not_rateLimited pw srv ip req1 tok1 t1 m1 (by rw [e1])
  · exact authInit_allowed_not_rateLimited pw _ ip req2 tok2 t2 m2 (by rw [hb1, e2])

/-- C6 witness: calls at 0 s, 1 s and 1.5 s from a fresh address; the first
two pass the limiter, the third is RateLimited with the store untouched. -/
theorem authInit_three_rapid_rateLimited_witness :
    (authInit "" ⟨StoreState.empty, []⟩ "a" ⟨"p", ""⟩ "t1" 0 0).1 ≠ .rateLimited
    ∧ (authInit "" (authInit "" ⟨StoreState.empty, []⟩ "a" ⟨"p", ""⟩ "t1" 0 0).2
        "a" ⟨"p", ""⟩ "t2" 1 0).1 ≠ .rateLimited
    ∧ (authInit "" (authInit "" (authInit "" ⟨StoreState.empty, []⟩ "a" ⟨"p", ""⟩ "t1" 0 0).2
        "a" ⟨"p", ""⟩ "t2" 1 0).2 "a" ⟨"p", ""⟩ "t3" (3/2) 0).1 = .rateLimited
    ∧ (authInit "" (authInit "" (authInit "" ⟨StoreState.empty, []⟩ "a" ⟨"p", ""⟩ "t1" 0 0).2
        "a" ⟨"p", ""⟩ "t2" 1 0).2 "a" ⟨"p", ""⟩ "t3" (3/2) 0).2.store
      = ((authInit "" (authInit "" ⟨StoreState.empty, []⟩ "a" ⟨"p", ""⟩ "t1" 0 0).2
        "a" ⟨"p", ""⟩ "t2" 1 0).2).store :=
  authInit_three_rapid_rateLimited "" ⟨StoreState.empty, []⟩ "a"
    ⟨"p", ""⟩ ⟨"p", ""⟩ ⟨"p", ""⟩ "t1" "t2" "t3" 0 1 (3/2) 0 0 0
    rfl (by norm_num) (by norm_num) (by norm_num)

/-! ## Profile switch vs. tombstones (claim C2) -/

/-- C2 (behaviour of the code at the failing input): the server marshals the
tombstone under the JSON key "deleted_at", but the `switchProfile` filter
tests the `deletedAt` property, which is absent from every marshalled
record — so the filter keeps every server record, tombstoned ones included,
and the concrete tombstoned workout/completion land in the replaced local
replica. -/
theorem switchProfile_keeps_tombstones :
    (∀ ws : List Workout,
        switchProfileWorkouts (ws.map marshalWorkout) = ws.map marshalWorkout)
    ∧ (∀ cs : List Completion,
        switchProfileCompletions (cs.map marshalCompletion) = cs.map marshalCompletion)
    ∧ truthy (jsGet (marshalWorkout wC2) "deleted_at") = true
    ∧ switchProfileWorkouts [marshalWorkout wC2] = [marshalWorkout wC2]
    ∧ truthy (jsGet (marshalCompletion cC2) "deleted_at") = true
    ∧ switchProfileCompletions [marshalCompletion cC2] = [marshalCompletion cC2] := by
  have hw : ∀ x : Workout, jsGet (marshalWorkout x) "deletedAt" = none := by
    intro x
    cases hd : x.deletedAt <;> simp [marshalWorkout, jsGet, List.find?, hd]
  have hcm : ∀ x : Completion, jsGet (marshalCompletion x) "deletedAt" = none := by
    intro x
    cases hd : x.deletedAt <;> simp [marshalCompletion, jsGet, List.find?, hd]
  refine ⟨?_, ?_, rfl, rfl, rfl, rfl⟩
  · intro ws
    unfold switchProfileWorkouts
    rw [List.filter_eq_self]
    intro a ha
    obtain ⟨x, _, rfl⟩ := List.mem_map.mp ha
    simp [hw x, truthy]
  · intro cs
    unfold switchProfileCompletions
    rw [List.filter_eq_self]
    intro a ha
    obtain ⟨x, _, rfl⟩ := List.mem_map.mp ha
    simp [hcm x, truthy]

/-! ## Client watermark storage (claim C9) -/

/-- C9 counterexample: a successful response carrying `last_synced_at = 0`
is not stored as 0 — the JS `||` fallback stores the client's current time
(777 here) instead of the returned value. -/
theorem clientStoreWatermark_zero_counterexample :
    clientStoreWatermark (some 0) 777 = 777 ∧ (777 : Nat) ≠ 0 := by decide

/-- C9 amended: on success the client stores the returned watermark
whenever it is non-zero; a zero or absent `last_synced_at` is replaced by
the client's current time. -/
theorem clientStoreWatermark_spec (v nowMs : Nat) (hv : v ≠ 0) :
    clientStoreWatermark (some v) nowMs = v
    ∧ clientStoreWatermark (some 0) nowMs = nowMs
    ∧ clientStoreWatermark none nowMs = nowMs := by
  refine ⟨?_, rfl, rfl⟩
  simp [clientStoreWatermark, hv]

/-- C9 witness: value 42 is stored as given; value 0 becomes the current
time 777. -/
theorem clientStoreWatermark_spec_witness :
    clientStoreWatermark (some 42) 777 = 42
    ∧ clientStoreWatermark (some 0) 777 = 777
    ∧ clientStoreWatermark none 777 = 777 :=
  clientStoreWatermark_spec 42 777 (by decide)

/-! ## Consecutive reconcile calls (claim C1) -/

/-- Membership in a changed-since result implies the watermark bound. -/
theorem mem_modifiedSince_updatedAt_gt (st : StoreState) (uid : String) (since : Nat)
    (w : Workout) (h : w ∈ getWorkoutsModifiedSince st uid since) : since < w.updatedAt := by
  unfold getWorkoutsModifiedSince at h
  obtain ⟨r, hr, rfl⟩ := List.mem_map.mp h
  rw [List.mem_insertionSort, List.mem_filter] at hr
  exact (of_decide_eq_true hr.2).2

/-- Membership in a changed-since result comes from a stored row of the
queried profile with the same updated-at. -/
theorem mem_modifiedSince_exists_row (st : StoreState) (uid : String) (since : Nat)
    (w : Workout) (h : w ∈ getWorkoutsModifiedSince st uid since) :
    ∃ r ∈ st.workouts, w.updatedAt = r.updatedAt ∧ r.userId = uid := by
  unfold getWorkoutsModifiedSince at h
  obtain ⟨r, hr, rfl⟩ := List.mem_map.mp h
  rw [List.mem_insertionSort, List.mem_filter] at hr
  exact ⟨r, hr.1, rfl, (of_decide_eq_true hr.2).1⟩

theorem mem_completionsModifiedSince_updatedAt_gt (st : StoreState) (uid : String)
    (since : Nat) (c : Completion) (h : c ∈ getCompletionsModifiedSince st uid since) :
    since < c.updatedAt := by
  unfold getCompletionsModifiedSince at h
  rw [List.mem_insertionSort, List.mem_filter] at h
  exact (of_decide_eq_true h.2).2

theorem mem_completionsModifiedSince_mem (st : StoreState) (uid : String)
    (since : Nat) (c : Completion) (h : c ∈ getCompletionsModifiedSince st uid since) :
    c ∈ st.completions ∧ c.userId = uid := by
  unfold getCompletionsModifiedSince at h
  rw [List.mem_insertionSort, List.mem_filter] at h
  exact ⟨h.1, (of_decide_eq_true h.2).1⟩

/-- C1 counterexample: the claim as stated fails on the code.  A first
reconcile call uploading a record with a client-supplied updated-at (1000)
beyond the server clock returns watermark 100 and delivers that record; a
second call at watermark 100 delivers the very same record again —
the first call's delta contains a record with updated-at exceeding the
returned watermark, and the second delta does not exclude it. -/
theorem reconcile_redelivery_counterexample :
    syncHandler stC1 "t" pC1 30 100 = some (st1C1, r1C1)
    ∧ syncHandler st1C1 "t"
        { lastSyncedAt := r1C1.lastSyncedAt, workouts := [], completions := [] } 150 200
      = some (st2C1, r2C1)
    ∧ ∃ w ∈ r1C1.workouts, r1C1.lastSyncedAt < w.updatedAt ∧ w ∈ r2C1.workouts := by
  decide

/-- C1 amended: provided no stored record of the authenticated profile
carries an updated-at beyond the first call's returned watermark w2 — true
whenever all timestamps come from clocks that do not run ahead of the
server — every record delivered by the first reconcile call has updated-at
at most w2, and any second reconcile call using watermark w2, whatever it
uploads, returns a delta that excludes every record the first call already
delivered. -/
theorem reconcile_second_delta_excludes_first
    (st0 : StoreState) (token : String) (p1 p2 : SyncPayload) (nu1 nr1 nu2 nr2 : Nat)
    (st1 st2 : StoreState) (r1 r2 : SyncPayload) (sess : Session)
    (hsess : verifySession st0 token = some sess)
    (h1 : syncHandler st0 token p1 nu1 nr1 = some (st1, r1))
    (hp2 : p2.lastSyncedAt = r1.lastSyncedAt)
    (h2 : syncHandler st1 token p2 nu2 nr2 = some (st2, r2))
    (hw : ∀ r ∈ st1.workouts, r.userId = sess.userId → r.updatedAt ≤ r1.lastSyncedAt)
    (hc : ∀ r ∈ st1.completions, r.userId = sess.userId → r.updatedAt ≤ r1.lastSyncedAt) :
    (∀ w ∈ r1.workouts, w.updatedAt ≤ r1.lastSyncedAt ∧ w ∉ r2.workouts)
    ∧ (∀ c ∈ r1.completions, c.updatedAt ≤ r1.lastSyncedAt ∧ c ∉ r2.completions) := by
  unfold syncHandler at h1 h2
  rw [hsess] at h1
  simp only [Option.some.injEq, Prod.mk.injEq] at h1
  obtain ⟨hst1, hr1⟩ := h1
  cases hv2 : verifySession st1 token with
  | none => rw [hv2] at h2; exact absurd h2 (by simp)
  | some sess2 =>
    rw [hv2] at h2
    simp only [Option.some.injEq, Prod.mk.injEq] at h2
    obtain ⟨hst2, hr2⟩ := h2
    subst hr1
    subst hr2
    subst hst1
    constructor
    · intro w hmem
      obtain ⟨row, hrow, hupd, huid⟩ := mem_modifiedSince_exists_row _ _ _ _ hmem
      have hbound : w.updatedAt ≤ nr1 := by
        rw [hupd]
        exact hw row (by rwa [updateLastSyncTime_workouts_frame]) huid
      refine ⟨hbound, fun hmem2 => ?_⟩
      have hgt := mem_modifiedSince_updatedAt_gt _ _ _ _ hmem2
      rw [hp2] at hgt
      exact absurd hgt (not_lt.mpr hbound)
    · intro c hmem
      obtain ⟨hcmem, hcuid⟩ := mem_completionsModifiedSince_mem _ _ _ _ hmem
      have hbound : c.updatedAt ≤ nr1 :=
        hc c (by rwa [updateLastSyncTime_completions_frame]) hcuid
      refine ⟨hbound, fun hmem2 => ?_⟩
      have hgt := mem_completionsModifiedSince_updatedAt_gt _ _ _ _ hmem2
      rw [hp2] at hgt
      exact absurd hgt (not_lt.mpr hbound)

/-- C1 witness: a well-clocked scenario (record updated-at 50 ≤ watermark
100) whose second call additionally uploads a fresh record; the second
delta carries only that fresh record, excluding everything the first call
delivered. -/
theorem reconcile_second_delta_excludes_first_witness :
    (∀ w ∈ r1C1w.workouts, w.updatedAt ≤ r1C1w.lastSyncedAt ∧ w ∉ r2C1w.workouts)
    ∧ (∀ c ∈ r1C1w.completions, c.updatedAt ≤ r1C1w.lastSyncedAt ∧ c ∉ r2C1w.completions) :=
  reconcile_second_delta_excludes_first stC1 "t" pC1w pC1w2 30 100 150 200 st1C1w st2C1w
    r1C1w r2C1w { token := "t", userId := "alice", createdAt := 0 }
    (by decide) (by decide) (by decide) (by decide) (by decide) (by decide)

end IntervalsSync
